import Mathlib

/-!
Verification of `pyrolite/util/lambdas/plot.py` (REE profile plotting helpers).

The numeric pipeline of `plot_lambdas_components`, `plot_lambdas_profiles` and
`plot_tetrads_profiles` is embedded over `ℚ`.  NumPy arrays of rank 1/2 are
modelled by `NDQ`; fallible NumPy operations (matmul dimension checks, in-place
broadcasting) return `Except String _`.  Matplotlib calls are out of scope: the
embeddings return the (x, y) series, tick labels and index mode that the source
hands to the plotting layer.

Helpers imported by plot.py from elsewhere in the package
(`get_tetrads_function`, `REE`, `get_ionic_radii`, `REE_z_to_radii`,
`get_lambda_poly_func`) are not part of the excerpt; each is modelled from the
specification and carries a doc comment saying so.
-/

namespace Pyrolite

/-! ## NumPy numerics -/

/-- `np.isclose(a, b)` with the NumPy defaults `rtol=1e-5`, `atol=1e-8`:
`|a - b| <= atol + rtol * |b|`.  Against `b = 0` this is `|a| <= 1e-8`. -/
def isclose (a b : ℚ) : Bool :=
  |a - b| ≤ (1 / 100000000 : ℚ) + (1 / 100000 : ℚ) * |b|

/-- `np.linspace(a, b, n)`: `n` evenly spaced samples from `a` to `b` inclusive. -/
def linspace (a b : ℚ) (n : ℕ) : List ℚ :=
  (List.range n).map (fun i : ℕ => a + (b - a) * (i : ℚ) / ((n - 1 : ℕ) : ℚ))

/-- Dot product of two coefficient rows (inner loop of `np.matmul`). -/
def dot (a b : List ℚ) : ℚ :=
  (List.zipWith (fun x y => x * y) a b).sum

/-- Column `j` of a rank-2 array (rows of equal length in every use here). -/
def col (B : List (List ℚ)) (j : ℕ) : List ℚ :=
  B.map (fun r => r.getD j 0)

/-- `A @ B` for rank-2 operands: entry `(i, j)` is `dot (row i of A) (col j of B)`.
NumPy raises on an inner-dimension mismatch, modelled by `Except.error`. -/
def matmul (A B : List (List ℚ)) : Except String (List (List ℚ)) :=
  if A.all (fun r => r.length == B.length) then
    .ok (A.map (fun row => (List.range (B.headD []).length).map (fun j => dot row (col B j))))
  else .error "matmul: dimension mismatch"

/-- A NumPy float array of rank 1 or 2. -/
inductive NDQ where
  | d1 (v : List ℚ)
  | d2 (m : List (List ℚ))
deriving DecidableEq

/-- A NumPy boolean array of rank 1 or 2. -/
inductive NDB where
  | d1 (v : List Bool)
  | d2 (m : List (List Bool))
deriving DecidableEq

/-- A NumPy float array after `arr[mask] = np.nan`: `none` models NaN
("no value", suppressed from rendering). -/
inductive NDO where
  | d1 (v : List (Option ℚ))
  | d2 (m : List (List (Option ℚ)))
deriving DecidableEq

/-- `np.atleast_2d`: a 1-D array of length `n` becomes a `(1, n)` array. -/
def atleast_2d : NDQ → List (List ℚ)
  | .d1 v => [v]
  | .d2 m => m

/-- `.squeeze()` on the rank-2 matmul results of plot.py: a single-row `(1, n)`
array collapses to rank 1.  (Axes of size one other than the row axis never
occur in these uses.) -/
def squeeze (m : List (List ℚ)) : NDQ :=
  if m.length = 1 then .d1 (m.headD []) else .d2 m

/-- Elementwise `np.isclose(arr, 0)`. -/
def iscloseZero : NDQ → NDB
  | .d1 v => .d1 (v.map (fun x => isclose x 0))
  | .d2 m => .d2 (m.map (fun r => r.map (fun x => isclose x 0)))

/-- The in-place product `yfltr *= mask` of plot.py, where `mask` is the rank-2
anchor-exemption array.  NumPy computes the broadcast shape of the two operands
and requires the output operand `yfltr` to have exactly that shape:
* rank-1 `yfltr` of length `n` against an `(r, n)` mask broadcasts to `(r, n)`,
  which cannot be stored back into shape `(n,)` — `ValueError`;
* rank-2 `yfltr` works only when its shape already equals the mask's shape. -/
def imulMask : NDB → List (List Bool) → Except String NDB
  | .d1 _, _ => .error "non-broadcastable output operand"
  | .d2 m, mask =>
    if m.length = mask.length then
      .ok (.d2 ((m.zip mask).map (fun p => List.zipWith (fun x y => x && y) p.1 p.2)))
    else .error "non-broadcastable output operand"

/-- `arr[fltr] = np.nan` for same-shaped `arr` and boolean `fltr`: filtered
entries become `none`.  The constructor-mismatch cases are unreachable in the
pipeline (the filter is always derived from the array it masks). -/
def maskOut : NDQ → NDB → NDO
  | .d1 v, .d1 f => .d1 ((v.zip f).map (fun p => if p.2 then none else some p.1))
  | .d2 m, .d2 f => .d2 ((m.zip f).map (fun p => (p.1.zip p.2).map (fun q => if q.2 then none else some q.1)))
  | .d1 v, .d2 _ => .d1 (v.map some)
  | .d2 m, .d1 _ => .d2 (m.map (fun r => r.map some))

/-- An array left untouched by suppression (every entry is a value). -/
def allSome : NDQ → NDO
  | .d1 v => .d1 (v.map some)
  | .d2 m => .d2 (m.map (fun r => r.map some))

/-- Leading dimension of a (possibly suppressed) series. -/
def ndoLength : NDO → ℕ
  | .d1 v => v.length
  | .d2 m => m.length

/-- `np.max` of a rank-1 array (the uses here are nonempty). -/
def npmax (l : List ℚ) : ℚ := l.foldl max (l.headD 0)

/-- `np.min` of a rank-1 array (the uses here are nonempty). -/
def npmin (l : List ℚ) : ℚ := l.foldl min (l.headD 0)

/-! ## Collaborators modelled from the spec

plot.py imports these from other modules of the package; those modules are not
part of the excerpt. -/

/-- Modelled from the spec: `geochem.ind.REE` is not in the excerpt.  The
lanthanide element symbols, atomic numbers 57 to 71 in order. -/
def REEnames : List String :=
  ["La", "Ce", "Pr", "Nd", "Pm", "Sm", "Eu", "Gd", "Tb", "Dy", "Ho", "Er", "Tm", "Yb", "Lu"]

/-- Modelled from the spec: `REE(dropPm=...)` returns the REE symbols,
"excluding the radioactive/omitted element Pm unless explicitly requested"
(the default is `dropPm=True`; passing `dropPm=False` requests Pm). -/
def REE (dropPm : Bool) : List String :=
  if dropPm then REEnames.filter (fun e => e ≠ "Pm") else REEnames

/-- Modelled from the spec: the Shannon ionic radii of the REE at charge 3+,
coordination VIII, one per symbol of `REEnames`, strictly decreasing with
atomic number as the spec requires. -/
def radiiREE : List ℚ :=
  [1.16, 1.143, 1.126, 1.109, 1.093, 1.079, 1.066, 1.053, 1.04, 1.027,
   1.015, 1.004, 0.994, 0.985, 0.977]

/-- Modelled from the spec: `geochem.ind.get_ionic_radii` is "an ionic-radius
lookup table keyed by (element, charge, coordination)".  The excerpt exercises
only the REE entries at charge 3, coordination 8; other keys are absent. -/
def get_ionic_radii (els : List String) (charge coordination : ℕ) : List ℚ :=
  if charge = 3 ∧ coordination = 8 then
    els.filterMap (fun e => (REEnames.zip radiiREE).lookup e)
  else []

/-- Piecewise-linear interpolation through a list of `(position, value)` knots,
constant beyond the last knot. -/
def interpKnots : List (ℚ × ℚ) → ℚ → ℚ
  | [], _ => 0
  | [(_, r)], _ => r
  | (z0, r0) :: (z1, r1) :: rest, x =>
    if x < z1 then r0 + (x - z0) * (r1 - r0) / (z1 - z0)
    else interpKnots ((z1, r1) :: rest) x

/-- Modelled from the spec: `transform.REE_z_to_radii` is not in the excerpt.
"Ionic radius (continuous, computed from atomic number at fixed charge=3,
coordination=8)": the fixed radius lookup at the integer atomic numbers 57-71,
interpolated linearly at fractional positions. -/
def REE_z_to_radii (x : ℚ) : ℚ :=
  interpKnots (((List.range 15).map (fun i : ℕ => (57 : ℚ) + (i : ℚ))).zip
    (get_ionic_radii (REE false) 3 8)) x

/-- Modelled from the spec: the default parameters of the four tetrad basis
functions, one `(centre, width)` per lanthanide sub-group.  The sub-groups span
[57, 60.5], [60.5, 64], [64, 67.5], [67.5, 71]: each basis vanishes at its
boundaries, giving the "canonical tetrad anchor atomic numbers" 57, 64, 64, 71
where "a true zero is a legitimate data point". -/
def defaultTetradParams : List (ℚ × ℚ) :=
  [(58.75, 3.5), (62.25, 3.5), (65.75, 3.5), (69.25, 3.5)]

/-- Modelled from the spec: one tetrad basis function.  A bump supported on
`[centre - width/2, centre + width/2]`, zero at and beyond the boundaries,
positive strictly inside (so the example position 60 inside the first tetrad
yields a nonzero value, as the spec's scenario requires). -/
def tetradBasis (cw : ℚ × ℚ) (x : ℚ) : ℚ :=
  max 0 (1 - ((x - cw.1) / (cw.2 / 2)) ^ 2)

/-- Modelled from the spec: `tetrads.get_tetrads_function` is not in the
excerpt.  "A fixed mapping from atomic number (or continuous position) to a
4-vector of per-tetrad basis values": evaluated over a position list it yields
the `4 × len(positions)` basis matrix (`sum=False` mode, the one plot.py uses). -/
def get_tetrads_function (ps : Option (List (ℚ × ℚ))) (positions : List ℚ) :
    List (List ℚ) :=
  (ps.getD defaultTetradParams).map (fun cw => positions.map (tetradBasis cw))

/-- Modelled from the spec: `eval.get_lambda_poly_func` is not in the excerpt.
`poly_i(x)` is "the orthogonal polynomial defined by params[i] (a tuple of
polynomial roots...)": the product of `(x - root)` over the tuple, the empty
degree-0 tuple giving the constant 1. -/
def lambda_poly (roots : List ℚ) (x : ℚ) : ℚ :=
  (roots.map (fun r => x - r)).prod

/-- Modelled from the spec: the reconstruction function is "the weighted sum
over i of `lambda_i * poly_i(x)`", pairing coefficients with their parameter
tuples; an empty coefficient list gives the zero function. -/
def get_lambda_poly_func (lambdas : List ℚ) (ps : List (List ℚ)) (x : ℚ) : ℚ :=
  ((lambdas.zip ps).map (fun wp => wp.1 * lambda_poly wp.2 x)).sum

/-! ## plot.py embeddings -/

/-- The numeric output of `plot_lambdas_components`: the x grid, the full
regression curve, and one singleton component per `(lambda, param)` pair,
tagged with the degree (`len(p)`) its plot label displays. -/
structure LambdasComponents where
  xs : List ℚ
  regression : ℚ → ℚ
  components : List ((ℚ → ℚ) × ℕ)

/-- `plot_lambdas_components(lambdas, params=...)` after parameter resolution:
radii of `REE()` at charge 3, coordination 8; x grid `linspace(max, min, 100)`;
the regression curve; then `for w, p in zip(lambdas, params)` one component
`get_lambda_poly_func([w], [p])` labelled by `len(p)`. -/
def plot_lambdas_components (lambdas : List ℚ) (ps : List (List ℚ)) :
    LambdasComponents :=
  let radii := get_ionic_radii (REE true) 3 8
  { xs := linspace (npmax radii) (npmin radii) 100
    regression := fun x => get_lambda_poly_func lambdas ps x
    components := (lambdas.zip ps).map
      (fun wp => (fun x => get_lambda_poly_func [wp.1] [wp.2] x, wp.2.length)) }

/-- The numeric output of `plot_lambdas_profiles`: x grid and regression curve. -/
structure LambdasProfiles where
  xs : List ℚ
  regression : ℚ → ℚ

/-- `plot_lambdas_profiles(lambdas, params=...)` after parameter resolution:
same x grid as `plot_lambdas_components`, single regression curve. -/
def plot_lambdas_profiles (lambdas : List ℚ) (ps : List (List ℚ)) :
    LambdasProfiles :=
  let radii := get_ionic_radii (REE true) 3 8
  { xs := linspace (npmax radii) (npmin radii) 100
    regression := fun x => get_lambda_poly_func lambdas ps x }

/-- `z = np.arange(57, 72)`: the marker positions, integer atomic numbers 57-71. -/
def zmarker : List ℚ :=
  [57, 58, 59, 60, 61, 62, 63, 64, 65, 66, 67, 68, 69, 70, 71]

/-- `linez = np.linspace(57, 71, 1000)`: the dense line positions. -/
def linez : List ℚ := linspace 57 71 1000

/-- `np.array([57, 64, 64, 71])`: the anchor list of the drop0 filter. -/
def anchors : List ℚ := [57, 64, 64, 71]

/-- `z[:, None] - np.array([57, 64, 64, 71]).T`: broadcasting `(15,1) - (4,)`
gives the `(15, 4)` difference array. -/
def anchorDiffs : List (List ℚ) :=
  zmarker.map (fun zj => anchors.map (fun a => zj - a))

/-- `(1 - np.isclose(z[:, None] - np.array([57,64,64,71]).T, 0).T).astype(bool)`:
the `(4, 15)` anchor-exemption mask, entry `(i, j)` true when marker position
`j` is to stay in the drop filter (it is not the `i`-th anchor). -/
def anchorMask : List (List Bool) :=
  ((anchorDiffs.map (fun row => row.map (fun d => isclose d 0))).transpose).map
    (fun row => row.map (fun b => decide ((1 - (if b then (1 : ℤ) else 0)) ≠ 0)))

/-- The numeric output of `plot_tetrads_profiles`: the index mode actually
used, the tick labels it substitutes (z branch only), the marker and line
x-coordinates, and the marker and line value series (entries `none` when
suppressed as NaN). -/
structure TetradsProfiles where
  indexUsed : String
  xticklabels : Option (List String)
  xs : List ℚ
  linex : List ℚ
  ys : NDO
  liney : NDO
deriving DecidableEq

/-- `plot_tetrads_profiles(ts, params=None, index="radii", logy=False,
drop0=True)`: the full numeric pipeline of the source, in source order.
`params` is accepted but unused: the source hardcodes
`f = get_tetrads_function(params=None)`.  Matplotlib glue (`REE_v_radii`,
`spider`, `logy`) is out of scope; the two spider calls receive `ys`/`xs` and
`liney`/`linex` of the returned record. -/
def plot_tetrads_profiles (ts : NDQ) (ps : Option (List (ℚ × ℚ)))
    (index : String) (drop0 : Bool) : Except String TetradsProfiles :=
  let f := get_tetrads_function none
  let ts2 := atleast_2d ts
  match matmul ts2 (f zmarker), matmul ts2 (f linez) with
  | .ok ysm, .ok lineym =>
    let ys := squeeze ysm
    let liney := squeeze lineym
    let xs0 := zmarker.map REE_z_to_radii
    let linex0 := linez.map REE_z_to_radii
    let branchRadii := index = "radii" ∨ index = "elements"
    let indexUsed := if branchRadii then index else "z"
    let ticks := if branchRadii then none else some (REE false)
    let xs := if branchRadii then xs0 else zmarker
    let linex := if branchRadii then linex0 else linez
    if drop0 then
      let yfltr := iscloseZero ys
      match imulMask yfltr anchorMask with
      | .error e => .error e
      | .ok yfltr2 =>
        .ok { indexUsed := indexUsed, xticklabels := ticks, xs := xs,
              linex := linex, ys := maskOut ys yfltr2,
              liney := maskOut liney (iscloseZero liney) }
    else
      .ok { indexUsed := indexUsed, xticklabels := ticks, xs := xs,
            linex := linex, ys := allSome ys, liney := allSome liney }
  | .error e, _ => .error e
  | _, .error e => .error e

/-! ## Result accessors (used to state the claims) -/

/-- Marker x-coordinates of a completed call. -/
def resXs : Except String TetradsProfiles → Option (List ℚ)
  | .ok r => some r.xs
  | .error _ => none

/-- Line x-coordinates of a completed call. -/
def resLinex : Except String TetradsProfiles → Option (List ℚ)
  | .ok r => some r.linex
  | .error _ => none

/-- Substituted tick labels of a completed call. -/
def resTicks : Except String TetradsProfiles → Option (Option (List String))
  | .ok r => some r.xticklabels
  | .error _ => none

/-- Marker value series of a completed call. -/
def resYs : Except String TetradsProfiles → Option NDO
  | .ok r => some r.ys
  | .error _ => none

/-- Line value series of a completed call. -/
def resLiney : Except String TetradsProfiles → Option NDO
  | .ok r => some r.liney
  | .error _ => none

/-- Error message of a failed call. -/
def resErr : Except String TetradsProfiles → Option String
  | .ok _ => none
  | .error e => some e

/-- Entry `(i, j)` of a rank-2 suppressed series (`some 37` is an arbitrary
out-of-range default, distinguishable from genuine entries in every use). -/
def entryNDO (a : NDO) (i j : ℕ) : Option ℚ :=
  match a with
  | .d1 v => v.getD j (some 37)
  | .d2 m => (m.getD i []).getD j (some 37)

/-- Marker entry `(i, j)` of a completed call. -/
def ysEntry (e : Except String TetradsProfiles) (i j : ℕ) : Option (Option ℚ) :=
  (resYs e).map (fun a => entryNDO a i j)

/-- Line entry `(i, j)` of a completed call. -/
def lineEntry (e : Except String TetradsProfiles) (i j : ℕ) : Option (Option ℚ) :=
  (resLiney e).map (fun a => entryNDO a i j)

/-- The raw (pre-suppression) marker value of tau row `i` at marker position
`j`: row `i` of `ts` dotted with column `j` of the basis matrix over `zmarker`. -/
def rawYs (rows : List (List ℚ)) (i j : ℕ) : ℚ :=
  dot (rows.getD i []) (col (get_tetrads_function none zmarker) j)

/-- The raw line value of tau row `i` at line position `k`. -/
def rawLine (rows : List (List ℚ)) (i k : ℕ) : ℚ :=
  dot (rows.getD i []) (col (get_tetrads_function none linez) k)

/-! ## Buffer-aliasing model

The frame claim (inputs never mutated) is about which NumPy buffers the source
writes to.  Each call is modelled as a trace of buffer events: the caller's
coefficient array is buffer 0, buffers allocated during the call are numbered
from 1 in source order, and every in-place statement of the source is a
`write` to the buffer it targets (views such as `atleast_2d`/`squeeze` alias
the buffer they are taken from and allocate nothing). -/

/-- A buffer event: an allocation of a fresh array, or an in-place write. -/
inductive ArrEv where
  | alloc (id : ℕ)
  | write (id : ℕ)
deriving DecidableEq

/-- Buffer trace of `plot_tetrads_profiles`.  `oneD` says whether `ts` came in
as a single 1-D tau vector (so the squeezed `ys` is rank 1); `drop0` is the
suppression flag.  Events, in source order:
* `f(z)` allocates 1, `f(linez)` allocates 2 (intermediate temporaries of each
  expression are summarised as its result buffer);
* `atleast_2d(ts)` is a view of buffer 0;
* `ts @ f(z)` allocates 3 and `.squeeze()` is a view of 3; `ts @ f(linez)`
  allocates 4 (view likewise);
* `REE_z_to_radii(z)` allocates 5, `REE_z_to_radii(linez)` allocates 6;
* under `drop0`: `np.isclose(ys, 0)` allocates 7, the anchor-mask expression
  allocates 8; then `yfltr *= mask` — for 1-D input it raises before writing,
  otherwise it writes buffer 7, `ys[yfltr] = np.nan` writes buffer 3,
  `np.isclose(liney, 0)` allocates 9 and `liney[...] = np.nan` writes buffer 4. -/
def tetradsProfilesTrace (oneD drop0 : Bool) : List ArrEv :=
  [.alloc 1, .alloc 2, .alloc 3, .alloc 4, .alloc 5, .alloc 6] ++
    (if drop0 then
      [.alloc 7, .alloc 8] ++
        (if oneD then [] else [.write 7, .write 3, .alloc 9, .write 4])
    else [])

/-- Buffer trace of `plot_lambdas_components`: the radii array and the x grid
are allocated (buffer 0 holds the caller's lambdas); no statement of the
function writes in place. -/
def lambdasComponentsTrace : List ArrEv := [.alloc 1, .alloc 2]

/-- Buffer trace of `plot_lambdas_profiles`: same allocations, no writes. -/
def lambdasProfilesTrace : List ArrEv := [.alloc 1, .alloc 2]

/-! ## Helper lemmas -/

theorem getD_map_lt {α β : Type} (f : α → β) (l : List α) (i : ℕ) (d : β)
    (d' : α) (h : i < l.length) : (l.map f).getD i d = f (l.getD i d') := by
  induction l generalizing i with
  | nil => simp at h
  | cons a t ih =>
    cases i with
    | zero => simp
    | succ n =>
      simp only [List.map_cons, List.getD_cons_succ]
      exact ih n (by simpa using h)

theorem getD_zip_lt {α β : Type} (l₁ : List α) (l₂ : List β) (i : ℕ)
    (a : α) (b : β) (h1 : i < l₁.length) (h2 : i < l₂.length) :
    (l₁.zip l₂).getD i (a, b) = (l₁.getD i a, l₂.getD i b) := by
  induction l₁ generalizing l₂ i with
  | nil => simp at h1
  | cons x t ih =>
    cases l₂ with
    | nil => simp at h2
    | cons y t₂ =>
      cases i with
      | zero => simp [List.zip_cons_cons]
      | succ n =>
        simp only [List.zip_cons_cons, List.getD_cons_succ]
        exact ih t₂ n (by simpa using h1) (by simpa using h2)

theorem getD_zipWith_lt {α β γ : Type} (f : α → β → γ) (l₁ : List α)
    (l₂ : List β) (i : ℕ) (d : γ) (a : α) (b : β)
    (h1 : i < l₁.length) (h2 : i < l₂.length) :
    (List.zipWith f l₁ l₂).getD i d = f (l₁.getD i a) (l₂.getD i b) := by
  induction l₁ generalizing l₂ i with
  | nil => simp at h1
  | cons x t ih =>
    cases l₂ with
    | nil => simp at h2
    | cons y t₂ =>
      cases i with
      | zero => simp
      | succ n =>
        simp only [List.zipWith_cons_cons, List.getD_cons_succ]
        exact ih t₂ n (by simpa using h1) (by simpa using h2)

theorem getD_range_lt (n k : ℕ) (h : k < n) (d : ℕ) :
    (List.range n).getD k d = k := by
  rw [List.getD_eq_getElem?_getD, List.getElem?_range h, Option.getD_some]

/-- The tau row `[0,0,0,0]` annihilates every basis column. -/
theorem dot_zeros4 (b : List ℚ) : dot [0, 0, 0, 0] b = 0 := by
  rcases b with _ | ⟨b1, _ | ⟨b2, _ | ⟨b3, _ | ⟨b4, t⟩⟩⟩⟩ <;>
    simp [dot]

/-- The anchor-exemption mask, evaluated: row `i` is true everywhere except at
the marker index of the `i`-th anchor (index 0 for 57, 7 for each 64, 14 for 71). -/
def anchorMaskLit : List (List Bool) :=
  [[false, true, true, true, true, true, true, true, true, true, true, true, true, true, true],
   [true, true, true, true, true, true, true, false, true, true, true, true, true, true, true],
   [true, true, true, true, true, true, true, false, true, true, true, true, true, true, true],
   [true, true, true, true, true, true, true, true, true, true, true, true, true, true, false]]

set_option maxRecDepth 20000 in
theorem anchorMask_lit : anchorMask = anchorMaskLit := by
  with_unfolding_all rfl

set_option maxRecDepth 20000 in
/-- The anchor-exemption mask, entrywise: position `j` stays in the drop
filter for tau row `i` exactly when marker position `j` is not the `i`-th
entry of the anchor list. -/
theorem anchorMask_eq :
    anchorMask = (List.range 4).map (fun i => (List.range 15).map
      (fun j => decide (zmarker.getD j 0 ≠ anchors.getD i 0))) := by
  rw [anchorMask_lit]
  with_unfolding_all rfl

theorem basisZ_length : (get_tetrads_function none zmarker).length = 4 := rfl

theorem basisL_length : (get_tetrads_function none linez).length = 4 := rfl

theorem basisZ_row_length :
    ((get_tetrads_function none zmarker).headD []).length = 15 := rfl

theorem linez_length : linez.length = 1000 := by
  simp [linez, linspace]

theorem basisL_row_length :
    ((get_tetrads_function none linez).headD []).length = 1000 := by
  simp [get_tetrads_function, defaultTetradParams, linez, linspace]

theorem anchorMask_length : anchorMask.length = 4 := by
  rw [anchorMask_eq]; rfl

theorem matmul_d1_z (v : List ℚ) (hv : v.length = 4) :
    matmul (atleast_2d (.d1 v)) (get_tetrads_function none zmarker)
      = .ok [(List.range 15).map (fun j => dot v (col (get_tetrads_function none zmarker) j))] := by
  have hb : (get_tetrads_function none zmarker).length = 4 := basisZ_length
  have hr : ((get_tetrads_function none zmarker).head?.getD []).length = 15 := by
    rw [← List.headD_eq_head?_getD]; exact basisZ_row_length
  simp [matmul, atleast_2d, hb, hr, hv]

theorem matmul_d1_line (v : List ℚ) (hv : v.length = 4) :
    matmul (atleast_2d (.d1 v)) (get_tetrads_function none linez)
      = .ok [(List.range 1000).map (fun k => dot v (col (get_tetrads_function none linez) k))] := by
  have hb : (get_tetrads_function none linez).length = 4 := basisL_length
  have hr : ((get_tetrads_function none linez).head?.getD []).length = 1000 := by
    rw [← List.headD_eq_head?_getD]; exact basisL_row_length
  simp [matmul, atleast_2d, hb, hr, hv]

/-- A single 1-D tau vector of length 4 with `drop0=False`: the call completes,
evaluating the tau row against the basis columns at the 15 marker positions and
the 1000 line positions, with the branch-dependent x-coordinates and labels. -/
theorem plot_d1_ok (v : List ℚ) (hv : v.length = 4) (ps : Option (List (ℚ × ℚ)))
    (index : String) :
    plot_tetrads_profiles (.d1 v) ps index false = .ok
      { indexUsed := if index = "radii" ∨ index = "elements" then index else "z",
        xticklabels := if index = "radii" ∨ index = "elements" then none else some (REE false),
        xs := if index = "radii" ∨ index = "elements" then zmarker.map REE_z_to_radii else zmarker,
        linex := if index = "radii" ∨ index = "elements" then linez.map REE_z_to_radii else linez,
        ys := allSome (.d1 ((List.range 15).map
          (fun j => dot v (col (get_tetrads_function none zmarker) j)))),
        liney := allSome (.d1 ((List.range 1000).map
          (fun k => dot v (col (get_tetrads_function none linez) k)))) } := by
  rw [plot_tetrads_profiles]
  rw [matmul_d1_z v hv, matmul_d1_line v hv]
  simp [squeeze]

theorem matmul_d2_z (rows : List (List ℚ)) (hrow : ∀ r ∈ rows, r.length = 4) :
    matmul (atleast_2d (.d2 rows)) (get_tetrads_function none zmarker)
      = .ok (rows.map (fun row => (List.range 15).map
          (fun j => dot row (col (get_tetrads_function none zmarker) j)))) := by
  have hall : rows.all (fun r => r.length == (get_tetrads_function none zmarker).length) = true := by
    rw [List.all_eq_true]; intro r hr; simp [hrow r hr, basisZ_length]
  have hr : ((get_tetrads_function none zmarker).head?.getD []).length = 15 := by
    rw [← List.headD_eq_head?_getD]; exact basisZ_row_length
  simp [matmul, atleast_2d, hall, hr]

theorem matmul_d2_line (rows : List (List ℚ)) (hrow : ∀ r ∈ rows, r.length = 4) :
    matmul (atleast_2d (.d2 rows)) (get_tetrads_function none linez)
      = .ok (rows.map (fun row => (List.range 1000).map
          (fun k => dot row (col (get_tetrads_function none linez) k)))) := by
  have hall : rows.all (fun r => r.length == (get_tetrads_function none linez).length) = true := by
    rw [List.all_eq_true]; intro r hr; simp [hrow r hr, basisL_length]
  have hr : ((get_tetrads_function none linez).head?.getD []).length = 1000 := by
    rw [← List.headD_eq_head?_getD]; exact basisL_row_length
  simp [matmul, atleast_2d, hall, hr]

/-- The raw 4 x 15 marker value matrix `ts @ f(z)` of a rank-2 tau input. -/
def mmZ (rows : List (List ℚ)) : List (List ℚ) :=
  rows.map (fun row => (List.range 15).map
    (fun j => dot row (col (get_tetrads_function none zmarker) j)))

/-- The raw 4 x 1000 line value matrix `ts @ f(linez)` of a rank-2 tau input. -/
def mmL (rows : List (List ℚ)) : List (List ℚ) :=
  rows.map (fun row => (List.range 1000).map
    (fun k => dot row (col (get_tetrads_function none linez) k)))

/-- `np.isclose(ys, 0)` over the marker matrix. -/
def fltrZ (rows : List (List ℚ)) : List (List Bool) :=
  (mmZ rows).map (fun r => r.map (fun x => isclose x 0))

/-- The drop filter after `yfltr *= mask` (the rank-2 case where it succeeds). -/
def fltr2Z (rows : List (List ℚ)) : List (List Bool) :=
  ((fltrZ rows).zip anchorMask).map
    (fun p => List.zipWith (fun x y => x && y) p.1 p.2)

/-- `np.isclose(liney, 0)` over the line matrix. -/
def fltrL (rows : List (List ℚ)) : List (List Bool) :=
  (mmL rows).map (fun r => r.map (fun x => isclose x 0))

/-- A rank-2 tau input with exactly 4 rows of 4 taus and `drop0=True`: the one
shape on which the in-place mask product succeeds.  The marker series is
masked by the anchor-exempted filter, the line series by the plain
near-zero filter. -/
theorem plot_d2_drop0 (rows : List (List ℚ)) (h4 : rows.length = 4)
    (hrow : ∀ r ∈ rows, r.length = 4) (ps : Option (List (ℚ × ℚ))) (index : String) :
    plot_tetrads_profiles (.d2 rows) ps index true = .ok
      { indexUsed := if index = "radii" ∨ index = "elements" then index else "z",
        xticklabels := if index = "radii" ∨ index = "elements" then none else some (REE false),
        xs := if index = "radii" ∨ index = "elements" then zmarker.map REE_z_to_radii else zmarker,
        linex := if index = "radii" ∨ index = "elements" then linez.map REE_z_to_radii else linez,
        ys := maskOut (.d2 (mmZ rows)) (.d2 (fltr2Z rows)),
        liney := maskOut (.d2 (mmL rows)) (.d2 (fltrL rows)) } := by
  rw [plot_tetrads_profiles, matmul_d2_z rows hrow, matmul_d2_line rows hrow]
  simp [squeeze, h4, iscloseZero, imulMask, anchorMask_length,
    mmZ, mmL, fltrZ, fltr2Z, fltrL]

theorem maskOut_d2_entry (m : List (List ℚ)) (f : List (List Bool)) (i j : ℕ)
    (hi : i < m.length) (hif : i < f.length)
    (hj : j < (m.getD i []).length) (hjf : j < (f.getD i []).length) :
    entryNDO (maskOut (.d2 m) (.d2 f)) i j
      = if (f.getD i []).getD j false then none
        else some ((m.getD i []).getD j 0) := by
  simp only [maskOut, entryNDO]
  rw [getD_map_lt _ _ _ _ ([], []) (by rw [List.length_zip]; omega)]
  rw [getD_zip_lt _ _ _ [] [] hi hif]
  rw [getD_map_lt _ _ _ _ (0, false) (by simp only [List.length_zip]; omega)]
  rw [getD_zip_lt _ _ _ 0 false hj hjf]

theorem mmZ_entry (rows : List (List ℚ)) (i j : ℕ)
    (hi : i < rows.length) (hj : j < 15) :
    ((mmZ rows).getD i []).getD j 0 = rawYs rows i j := by
  rw [mmZ, getD_map_lt _ _ _ _ [] (by simpa using hi)]
  rw [getD_map_lt _ _ _ _ 0 (by simpa using hj)]
  rw [getD_range_lt 15 j hj]
  rfl

theorem mmL_entry (rows : List (List ℚ)) (i k : ℕ)
    (hi : i < rows.length) (hk : k < 1000) :
    ((mmL rows).getD i []).getD k 0 = rawLine rows i k := by
  rw [mmL, getD_map_lt _ _ _ _ [] (by simpa using hi)]
  rw [getD_map_lt _ _ _ _ 0 (by simpa using hk)]
  rw [getD_range_lt 1000 k hk]
  rfl

theorem mmZ_row_length (rows : List (List ℚ)) (i : ℕ) (hi : i < rows.length) :
    ((mmZ rows).getD i []).length = 15 := by
  rw [mmZ, getD_map_lt _ _ _ _ [] (by simpa using hi)]
  simp

theorem mmL_row_length (rows : List (List ℚ)) (i : ℕ) (hi : i < rows.length) :
    ((mmL rows).getD i []).length = 1000 := by
  rw [mmL, getD_map_lt _ _ _ _ [] (by simpa using hi)]
  simp

theorem fltrZ_entry (rows : List (List ℚ)) (i j : ℕ)
    (hi : i < rows.length) (hj : j < 15) :
    ((fltrZ rows).getD i []).getD j false = isclose (rawYs rows i j) 0 := by
  rw [fltrZ, getD_map_lt _ _ _ _ [] (by simpa [mmZ] using hi)]
  rw [getD_map_lt _ _ _ _ 0 (by rw [mmZ_row_length rows i hi]; omega)]
  rw [mmZ_entry rows i j hi hj]

theorem fltrL_entry (rows : List (List ℚ)) (i k : ℕ)
    (hi : i < rows.length) (hk : k < 1000) :
    ((fltrL rows).getD i []).getD k false = isclose (rawLine rows i k) 0 := by
  rw [fltrL, getD_map_lt _ _ _ _ [] (by simpa [mmL] using hi)]
  rw [getD_map_lt _ _ _ _ 0 (by rw [mmL_row_length rows i hi]; omega)]
  rw [mmL_entry rows i k hi hk]

theorem anchorMask_entry (i j : ℕ) (hi : i < 4) (hj : j < 15) :
    (anchorMask.getD i []).getD j false
      = decide (zmarker.getD j 0 ≠ anchors.getD i 0) := by
  rw [anchorMask_eq]
  rw [getD_map_lt _ _ _ _ 0 (by simpa using hi)]
  rw [getD_range_lt 4 i hi]
  rw [getD_map_lt _ _ _ _ 0 (by simpa using hj)]
  rw [getD_range_lt 15 j hj]

theorem fltr2Z_entry (rows : List (List ℚ)) (h4 : rows.length = 4) (i j : ℕ)
    (hi : i < 4) (hj : j < 15) :
    ((fltr2Z rows).getD i []).getD j false
      = (isclose (rawYs rows i j) 0 && decide (zmarker.getD j 0 ≠ anchors.getD i 0)) := by
  have hir : i < rows.length := by omega
  have hfl : i < (fltrZ rows).length := by simpa [fltrZ, mmZ] using hir
  have hal : i < anchorMask.length := by rw [anchorMask_length]; omega
  rw [fltr2Z, getD_map_lt _ _ _ _ ([], []) (by rw [List.length_zip]; omega)]
  rw [getD_zip_lt _ _ _ [] [] hfl hal]
  rw [getD_zipWith_lt _ _ _ _ _ false false
    (by rw [fltrZ, getD_map_lt _ _ _ _ [] (by simpa [mmZ] using hir), List.length_map,
            mmZ_row_length rows i hir]; omega)
    (by rw [anchorMask_lit] at hal ⊢
        interval_cases i <;> simp [anchorMaskLit] <;> omega)]
  rw [fltrZ_entry rows i j hir hj, anchorMask_entry i j hi hj]

theorem fltr2Z_row_length (rows : List (List ℚ)) (h4 : rows.length = 4)
    (i : ℕ) (hi : i < 4) : ((fltr2Z rows).getD i []).length = 15 := by
  have hir : i < rows.length := by omega
  have hfl : i < (fltrZ rows).length := by simpa [fltrZ, mmZ] using hir
  have hal : i < anchorMask.length := by rw [anchorMask_length]; omega
  rw [fltr2Z, getD_map_lt _ _ _ _ ([], []) (by simp [List.length_zip]; omega)]
  rw [getD_zip_lt _ _ _ [] [] hfl hal]
  have h1 : ((fltrZ rows).getD i []).length = 15 := by
    rw [fltrZ, getD_map_lt _ _ _ _ [] (by simpa [mmZ] using hir),
      List.length_map, mmZ_row_length rows i hir]
  have h2 : (anchorMask.getD i []).length = 15 := by
    rw [anchorMask_lit]; interval_cases i <;> rfl
  rw [List.length_zipWith, h1, h2]
  rfl

theorem fltrL_row_length (rows : List (List ℚ)) (i : ℕ) (hi : i < rows.length) :
    ((fltrL rows).getD i []).length = 1000 := by
  rw [fltrL, getD_map_lt _ _ _ _ [] (by simpa [mmL] using hi),
    List.length_map, mmL_row_length rows i hi]

/-! ## Claim theorems -/

set_option maxRecDepth 20000 in
/-- Claim C1, counterexample.  The claim says values at the canonical anchor
atomic numbers are retained even when exactly 0, for both produced series.  At
the 4-row tau input of all ones (the only input shape on which the drop0
masking succeeds), the marker value of row 0 at marker index 7 — atomic number
64, an anchor, with raw value exactly 0 — is nevertheless suppressed to
"no value": the mask row for tau row `i` exempts only the single `i`-th anchor. -/
theorem C1_counterexample :
    ysEntry (plot_tetrads_profiles
        (.d2 [[1, 1, 1, 1], [1, 1, 1, 1], [1, 1, 1, 1], [1, 1, 1, 1]]) none "z" true) 0 7
      = some none ∧
    zmarker.getD 7 0 = 64 ∧ (64 : ℚ) ∈ anchors ∧
    rawYs [[1, 1, 1, 1], [1, 1, 1, 1], [1, 1, 1, 1], [1, 1, 1, 1]] 0 7 = 0 := by
  refine ⟨by with_unfolding_all rfl, by with_unfolding_all rfl, ?_,
    by with_unfolding_all rfl⟩
  norm_num [anchors]

/-- Claim C1, amended.  With `drop0=True` and a 4-row tau matrix (the only
shape on which the in-place mask product succeeds; a single tau vector raises
instead, see C2): the marker value of row `i` at marker position `j` is
suppressed exactly when it is numerically close to 0 and marker position `j`
differs from the single `i`-th entry of the anchor list `[57, 64, 64, 71]`;
the dense line series receives no anchor exemption at all — each of its values
is suppressed exactly when it is numerically close to 0. -/
theorem C1_amended_suppression (rows : List (List ℚ)) (h4 : rows.length = 4)
    (hrow : rows.all (fun r => r.length == 4) = true) (index : String) (i j k : ℕ)
    (hi : i < 4) (hj : j < 15) (hk : k < 1000) :
    ysEntry (plot_tetrads_profiles (.d2 rows) none index true) i j
      = some (if isclose (rawYs rows i j) 0 ∧ zmarker.getD j 0 ≠ anchors.getD i 0
              then none else some (rawYs rows i j)) ∧
    lineEntry (plot_tetrads_profiles (.d2 rows) none index true) i k
      = some (if isclose (rawLine rows i k) 0 then none
              else some (rawLine rows i k)) := by
  have hrow' : ∀ r ∈ rows, r.length = 4 := by
    intro r hr
    simpa using List.all_eq_true.1 hrow r hr
  have hir : i < rows.length := by omega
  rw [plot_d2_drop0 rows h4 hrow' none index]
  constructor
  · simp only [ysEntry, resYs, Option.map]
    rw [maskOut_d2_entry (mmZ rows) (fltr2Z rows) i j
      (by simpa [mmZ] using hir)
      (by simp [fltr2Z, fltrZ, mmZ, List.length_zip, anchorMask_length, h4]; omega)
      (by rw [mmZ_row_length rows i hir]; omega)
      (by rw [fltr2Z_row_length rows h4 i hi]; omega)]
    rw [fltr2Z_entry rows h4 i j hi hj, mmZ_entry rows i j hir hj]
    simp [Bool.and_eq_true, decide_eq_true_eq]
  · simp only [lineEntry, resLiney, Option.map]
    rw [maskOut_d2_entry (mmL rows) (fltrL rows) i k
      (by simpa [mmL] using hir)
      (by simpa [fltrL, mmL] using hir)
      (by rw [mmL_row_length rows i hir]; omega)
      (by rw [fltrL_row_length rows i hir]; omega)]
    rw [fltrL_entry rows i k hir hk, mmL_entry rows i k hir hk]

/-- Claim C1, witness for the amended theorem at the all-ones 4-row input,
row 0, marker index 0 and line index 0. -/
theorem C1_amended_suppression_witness :
    (([[1, 1, 1, 1], [1, 1, 1, 1], [1, 1, 1, 1], [1, 1, 1, 1]] : List (List ℚ)).length = 4) ∧
    (([[1, 1, 1, 1], [1, 1, 1, 1], [1, 1, 1, 1], [1, 1, 1, 1]] : List (List ℚ)).all
        (fun r => r.length == 4) = true) ∧
    (0 : ℕ) < 4 ∧ (0 : ℕ) < 15 ∧ (0 : ℕ) < 1000 ∧
    (ysEntry (plot_tetrads_profiles
          (.d2 [[1, 1, 1, 1], [1, 1, 1, 1], [1, 1, 1, 1], [1, 1, 1, 1]]) none "z" true) 0 0
        = some (if isclose (rawYs [[1, 1, 1, 1], [1, 1, 1, 1], [1, 1, 1, 1], [1, 1, 1, 1]] 0 0) 0 ∧
                  zmarker.getD 0 0 ≠ anchors.getD 0 0
                then none
                else some (rawYs [[1, 1, 1, 1], [1, 1, 1, 1], [1, 1, 1, 1], [1, 1, 1, 1]] 0 0)) ∧
      lineEntry (plot_tetrads_profiles
          (.d2 [[1, 1, 1, 1], [1, 1, 1, 1], [1, 1, 1, 1], [1, 1, 1, 1]]) none "z" true) 0 0
        = some (if isclose (rawLine [[1, 1, 1, 1], [1, 1, 1, 1], [1, 1, 1, 1], [1, 1, 1, 1]] 0 0) 0
                then none
                else some (rawLine [[1, 1, 1, 1], [1, 1, 1, 1], [1, 1, 1, 1], [1, 1, 1, 1]] 0 0))) :=
  ⟨rfl, rfl, by norm_num, by norm_num, by norm_num,
    C1_amended_suppression [[1, 1, 1, 1], [1, 1, 1, 1], [1, 1, 1, 1], [1, 1, 1, 1]] rfl rfl
      "z" 0 0 0 (by norm_num) (by norm_num) (by norm_num)⟩

set_option maxRecDepth 20000 in
/-- Claim C2.  For a single 1-D tau vector of length 4 with `drop0=True` (the
default), the claim says the near-zero filter (15 entries) combines with the
4 x 15 anchor-exemption mask by an in-place elementwise product without a
shape error and the call returns.  The code disagrees: the mask does have
shape 4 x 15 and the squeezed marker series does have 15 entries, but NumPy
cannot store the `(4, 15)` broadcast of `yfltr *= mask` back into the
`(15,)` output operand, so the call raises instead of returning. -/
theorem C2_broadcast_failure :
    resErr (plot_tetrads_profiles (.d1 [1, 1, 1, 1]) none "radii" true)
      = some "non-broadcastable output operand" ∧
    (resYs (plot_tetrads_profiles (.d1 [1, 1, 1, 1]) none "radii" false)).map ndoLength
      = some 15 ∧
    anchorMask.length = 4 ∧
    anchorMask.all (fun r => r.length == 15) = true := by
  refine ⟨by with_unfolding_all rfl, by with_unfolding_all rfl,
    by with_unfolding_all rfl, by with_unfolding_all rfl⟩

/-- Claim C3.  The `params` argument of `plot_tetrads_profiles` has no effect
on the result: the source constructs the tetrad basis with
`get_tetrads_function(params=None)` regardless, so two calls differing only in
`params` return identical marker and line series (indeed identical results). -/
theorem C3_params_no_effect :
    ∀ (ts : NDQ) (ps1 ps2 : Option (List (ℚ × ℚ))) (index : String) (drop0 : Bool),
      plot_tetrads_profiles ts ps1 index drop0 = plot_tetrads_profiles ts ps2 index drop0 := by
  intro ts ps1 ps2 index drop0
  rfl

set_option maxRecDepth 100000 in
/-- Claim C4.  For any index other than "radii"/"elements", a completed call
uses the raw atomic numbers as marker x-coordinates and the fractional line
positions as line x-coordinates, and substitutes the element symbols
`REE(dropPm=False)` as tick labels afterward: Pm appears there because the
call explicitly requests it, while the default `REE()` (dropPm=True) excludes
the radioactive/omitted Pm. -/
theorem C4_z_index_ticklabels :
    ∀ (ts : NDQ) (ps : Option (List (ℚ × ℚ))) (index : String) (drop0 : Bool)
      (r : TetradsProfiles),
      index ≠ "radii" → index ≠ "elements" →
      plot_tetrads_profiles ts ps index drop0 = .ok r →
      r.xs = zmarker ∧ r.linex = linez ∧ r.indexUsed = "z" ∧
      r.xticklabels = some (REE false) ∧
      "Pm" ∈ REE false ∧ "Pm" ∉ REE true := by
  intro ts ps index drop0 r h1 h2 hok
  have hbr : ¬(index = "radii" ∨ index = "elements") := by
    rintro (h | h)
    · exact h1 h
    · exact h2 h
  rw [plot_tetrads_profiles] at hok
  rcases hmz : matmul (atleast_2d ts) (get_tetrads_function none zmarker) with e | ysm <;>
    rw [hmz] at hok
  · simp at hok
  rcases hml : matmul (atleast_2d ts) (get_tetrads_function none linez) with e | lineym <;>
    rw [hml] at hok
  · simp at hok
  simp only [] at hok
  rw [if_neg hbr, if_neg hbr, if_neg hbr, if_neg hbr] at hok
  have hfin : r.xs = zmarker ∧ r.linex = linez ∧ r.indexUsed = "z" ∧
      r.xticklabels = some (REE false) := by
    cases drop0 with
    | false =>
      simp only [Bool.false_eq_true, if_false] at hok
      injection hok with h
      subst h
      exact ⟨rfl, rfl, rfl, rfl⟩
    | true =>
      simp only [if_true] at hok
      rcases himul : imulMask (iscloseZero (squeeze ysm)) anchorMask with e | f2 <;>
        rw [himul] at hok
      · simp at hok
      · simp only [] at hok
        injection hok with h
        subst h
        exact ⟨rfl, rfl, rfl, rfl⟩
  exact ⟨hfin.1, hfin.2.1, hfin.2.2.1, hfin.2.2.2, by simp [REE, REEnames],
    by simp [REE, REEnames]⟩

/-- Claim C4, witness: the call at `index="z"`, `drop0=False` with a zero tau
vector substitutes the `REE(dropPm=False)` tick labels. -/
theorem C4_z_index_ticklabels_witness :
    resTicks (plot_tetrads_profiles (.d1 [0, 0, 0, 0]) none "z" false)
      = some (some (REE false)) := by
  cases hok : plot_tetrads_profiles (.d1 [0, 0, 0, 0]) none "z" false with
  | error e =>
    have hne : resErr (plot_tetrads_profiles (.d1 [0, 0, 0, 0]) none "z" false) = none := by
      with_unfolding_all rfl
    rw [hok] at hne
    simp [resErr] at hne
  | ok r =>
    have h := C4_z_index_ticklabels (.d1 [0, 0, 0, 0]) none "z" false r
      (by decide) (by decide) hok
    simp [resTicks, h.2.2.2.1]

/-- Claim C5.  The marker series is evaluated at exactly the 15 integer atomic
numbers 57-71 (`np.arange(57, 72)`) and the line series at exactly the 1000
evenly spaced positions `57 + 14*k/999` of `np.linspace(57, 71, 1000)`; a
completed call carries exactly these two series (the record's `ys`/`liney`,
handed to the two spider calls).  However the claim's "every call" fails: at
the default `drop0=True` with a single tau vector the suppression step raises
(see C2) before either series is drawn — the final conjunct exhibits this. -/
theorem C5_marker_line_sampling :
    zmarker = [57, 58, 59, 60, 61, 62, 63, 64, 65, 66, 67, 68, 69, 70, 71] ∧
    zmarker.length = 15 ∧ linez.length = 1000 ∧
    (∀ k : ℕ, k < 1000 → linez.getD k 0 = 57 + 14 * (k : ℚ) / 999) ∧
    (∀ (v : List ℚ), v.length = 4 → ∀ (ps : Option (List (ℚ × ℚ))) (index : String),
      resYs (plot_tetrads_profiles (.d1 v) ps index false)
        = some (.d1 ((List.range 15).map
            (fun j => some (dot v (col (get_tetrads_function none zmarker) j))))) ∧
      resLiney (plot_tetrads_profiles (.d1 v) ps index false)
        = some (.d1 ((List.range 1000).map
            (fun k => some (dot v (col (get_tetrads_function none linez) k)))))) ∧
    resErr (plot_tetrads_profiles (.d1 [1, 1, 1, 1]) none "elements" true)
      = some "non-broadcastable output operand" := by
  refine ⟨rfl, rfl, linez_length, ?_, ?_, by with_unfolding_all rfl⟩
  · intro k hk
    rw [linez, linspace]
    rw [getD_map_lt _ _ _ _ 0 (by simpa using hk)]
    rw [getD_range_lt 1000 k hk]
    norm_num
  · intro v hv ps index
    rw [plot_d1_ok v hv ps index]
    constructor
    · simp [resYs, allSome, List.map_map, Function.comp]
    · simp [resLiney, allSome, List.map_map, Function.comp]

/-- Claim C5, witness: the first line sample sits at 57. -/
theorem C5_marker_line_sampling_witness :
    (0 : ℕ) < 1000 ∧ linez.getD 0 0 = 57 + 14 * ((0 : ℕ) : ℚ) / 999 :=
  ⟨by norm_num, C5_marker_line_sampling.2.2.2.1 0 (by norm_num)⟩

set_option maxRecDepth 100000 in
/-- Claim C6.  The coordinate transform is selected by the index: for "radii"
or "elements" the x-coordinates of a completed call are the ionic radii of the
atomic numbers (markers) and of the fractional line positions; for every other
index the call behaves as index "z", using the raw atomic numbers and the raw
fractional positions. -/
theorem C6_index_transform :
    ∀ (ts : NDQ) (ps : Option (List (ℚ × ℚ))) (index : String) (drop0 : Bool)
      (r : TetradsProfiles),
      plot_tetrads_profiles ts ps index drop0 = .ok r →
      ((index = "radii" ∨ index = "elements") →
        r.xs = zmarker.map REE_z_to_radii ∧ r.linex = linez.map REE_z_to_radii ∧
        r.indexUsed = index) ∧
      (index ≠ "radii" → index ≠ "elements" →
        r.xs = zmarker ∧ r.linex = linez ∧ r.indexUsed = "z") := by
  intro ts ps index drop0 r hok
  rw [plot_tetrads_profiles] at hok
  rcases hmz : matmul (atleast_2d ts) (get_tetrads_function none zmarker) with e | ysm <;>
    rw [hmz] at hok
  · simp at hok
  rcases hml : matmul (atleast_2d ts) (get_tetrads_function none linez) with e | lineym <;>
    rw [hml] at hok
  · simp at hok
  simp only [] at hok
  by_cases hbr : index = "radii" ∨ index = "elements"
  · rw [if_pos hbr, if_pos hbr, if_pos hbr, if_pos hbr] at hok
    have hfin : r.xs = zmarker.map REE_z_to_radii ∧ r.linex = linez.map REE_z_to_radii ∧
        r.indexUsed = index := by
      cases drop0 with
      | false =>
        simp only [Bool.false_eq_true, if_false] at hok
        injection hok with h
        subst h
        exact ⟨rfl, rfl, rfl⟩
      | true =>
        simp only [if_true] at hok
        rcases himul : imulMask (iscloseZero (squeeze ysm)) anchorMask with e | f2 <;>
          rw [himul] at hok
        · simp at hok
        · simp only [] at hok
          injection hok with h
          subst h
          exact ⟨rfl, rfl, rfl⟩
    refine ⟨fun _ => hfin, fun h1 h2 => ?_⟩
    rcases hbr with h | h
    · exact absurd h h1
    · exact absurd h h2
  · rw [if_neg hbr, if_neg hbr, if_neg hbr, if_neg hbr] at hok
    have hfin : r.xs = zmarker ∧ r.linex = linez ∧ r.indexUsed = "z" := by
      cases drop0 with
      | false =>
        simp only [Bool.false_eq_true, if_false] at hok
        injection hok with h
        subst h
        exact ⟨rfl, rfl, rfl⟩
      | true =>
        simp only [if_true] at hok
        rcases himul : imulMask (iscloseZero (squeeze ysm)) anchorMask with e | f2 <;>
          rw [himul] at hok
        · simp at hok
        · simp only [] at hok
          injection hok with h
          subst h
          exact ⟨rfl, rfl, rfl⟩
    exact ⟨fun h => absurd h hbr, fun _ _ => hfin⟩

/-- Claim C6, witness: at `index="radii"` the marker x-coordinates of a
completed call are the radii of the atomic numbers. -/
theorem C6_index_transform_witness :
    resXs (plot_tetrads_profiles (.d1 [0, 0, 0, 0]) none "radii" false)
      = some (zmarker.map REE_z_to_radii) := by
  cases hok : plot_tetrads_profiles (.d1 [0, 0, 0, 0]) none "radii" false with
  | error e =>
    have hne : resErr (plot_tetrads_profiles (.d1 [0, 0, 0, 0]) none "radii" false) = none := by
      with_unfolding_all rfl
    rw [hok] at hne
    simp [resErr] at hne
  | ok r =>
    have h := (C6_index_transform (.d1 [0, 0, 0, 0]) none "radii" false r hok).1 (Or.inl rfl)
    simp [resXs, h.1]

/-- Claim C7, counterexample.  The claim says the all-zero tau vector with
`drop0` set yields all-suppressed output; instead the call fails in the mask
product (the C2 slip) and produces no value series at all. -/
theorem C7_counterexample :
    resErr (plot_tetrads_profiles (.d1 [0, 0, 0, 0]) none "radii" true)
      = some "non-broadcastable output operand" ∧
    resYs (plot_tetrads_profiles (.d1 [0, 0, 0, 0]) none "radii" true) = none := by
  exact ⟨by with_unfolding_all rfl, by with_unfolding_all rfl⟩

/-- Claim C7, amended.  The matrix product of the all-zero 1 x 4 tau vector
with the 4 x len(positions) basis matrix is all-zero for every positions
vector, and the completed `drop0=False` call returns the all-zero marker
series; but with `drop0` set the suppression step raises a broadcast error
instead of returning an all-suppressed series. -/
theorem C7_zero_taus_amended :
    (∀ (positions : List ℚ),
      matmul (atleast_2d (.d1 [0, 0, 0, 0])) (get_tetrads_function none positions)
        = .ok [List.replicate positions.length 0]) ∧
    resYs (plot_tetrads_profiles (.d1 [0, 0, 0, 0]) none "z" false)
      = some (.d1 (List.replicate 15 (some 0))) ∧
    resErr (plot_tetrads_profiles (.d1 [0, 0, 0, 0]) none "z" true)
      = some "non-broadcastable output operand" := by
  refine ⟨?_, ?_, ?_⟩
  · intro positions
    have hb : (get_tetrads_function none positions).length = 4 := by
      simp [get_tetrads_function, defaultTetradParams]
    have hr : ((get_tetrads_function none positions).headD []).length
        = positions.length := by
      simp [get_tetrads_function, defaultTetradParams]
    simp only [matmul, atleast_2d]
    rw [if_pos (by simp [hb])]
    rw [hr]
    congr 1
    simp only [List.map_cons, List.map_nil]
    congr 1
    refine List.eq_replicate_iff.2 ⟨by simp, ?_⟩
    intro b hb
    rcases List.mem_map.1 hb with ⟨j, hj, rfl⟩
    exact dot_zeros4 _
  · with_unfolding_all rfl
  · with_unfolding_all rfl

/-- Claim C8.  A singleton `(lambdas=[w], params=[p])` reconstruction isolates
exactly the one term `w * poly_p(x)`, and `plot_lambdas_components` emits one
such singleton component per `(lambda, param)` pair of its input, labelled by
the pair's degree `len(p)`. -/
theorem C8_singleton_isolation :
    (∀ (w : ℚ) (p : List ℚ) (x : ℚ),
      get_lambda_poly_func [w] [p] x = w * lambda_poly p x) ∧
    (∀ (lambdas : List ℚ) (ps : List (List ℚ)),
      (plot_lambdas_components lambdas ps).components
        = (lambdas.zip ps).map
            (fun wp => (fun x => wp.1 * lambda_poly wp.2 x, wp.2.length))) := by
  have h1 : ∀ (w : ℚ) (p : List ℚ) (x : ℚ),
      get_lambda_poly_func [w] [p] x = w * lambda_poly p x := by
    intro w p x
    simp [get_lambda_poly_func]
  refine ⟨h1, ?_⟩
  intro lambdas ps
  simp only [plot_lambdas_components]
  refine List.map_congr_left ?_
  intro wp _
  refine Prod.ext ?_ rfl
  funext x
  exact h1 wp.1 wp.2 x

set_option maxRecDepth 100000 in
/-- Claim C9.  Whenever the radii coordinate domain is used, the x-coordinates
come from the ionic radii of the REE at charge 3, coordination 8: the two
lambda plots span `linspace(max(radii), min(radii), 100)` over exactly those
radii (1.16 down to 0.977), `plot_tetrads_profiles` with index "radii" or
"elements" maps the atomic numbers through `REE_z_to_radii`, that transform
agrees with the charge-3/coordination-8 lookup at every marker atomic number,
and a different coordination yields no radii at all. -/
theorem C9_radii_charge3_coordination8 :
    (∀ (lambdas : List ℚ) (ps : List (List ℚ)),
      (plot_lambdas_components lambdas ps).xs
        = linspace (npmax (get_ionic_radii (REE true) 3 8))
            (npmin (get_ionic_radii (REE true) 3 8)) 100 ∧
      (plot_lambdas_profiles lambdas ps).xs
        = linspace (npmax (get_ionic_radii (REE true) 3 8))
            (npmin (get_ionic_radii (REE true) 3 8)) 100) ∧
    (∀ (ts : NDQ) (ps : Option (List (ℚ × ℚ))) (index : String) (drop0 : Bool)
        (r : TetradsProfiles),
      plot_tetrads_profiles ts ps index drop0 = .ok r →
      (index = "radii" ∨ index = "elements") →
      r.xs = zmarker.map REE_z_to_radii ∧ r.linex = linez.map REE_z_to_radii) ∧
    (∀ j : ℕ, j < 15 →
      REE_z_to_radii (zmarker.getD j 0) = (get_ionic_radii (REE false) 3 8).getD j 0) ∧
    get_ionic_radii (REE false) 3 8 = radiiREE ∧
    get_ionic_radii (REE false) 3 7 = [] ∧
    npmax (get_ionic_radii (REE true) 3 8) = 1.16 ∧
    npmin (get_ionic_radii (REE true) 3 8) = 0.977 := by
  refine ⟨fun lambdas ps => ⟨rfl, rfl⟩, ?_, ?_, by with_unfolding_all rfl,
    by with_unfolding_all rfl, by with_unfolding_all rfl, by with_unfolding_all rfl⟩
  · intro ts ps index drop0 r hok hbr
    rw [plot_tetrads_profiles] at hok
    rcases hmz : matmul (atleast_2d ts) (get_tetrads_function none zmarker) with e | ysm <;>
      rw [hmz] at hok
    · simp at hok
    rcases hml : matmul (atleast_2d ts) (get_tetrads_function none linez) with e | lineym <;>
      rw [hml] at hok
    · simp at hok
    simp only [] at hok
    rw [if_pos hbr, if_pos hbr, if_pos hbr, if_pos hbr] at hok
    cases drop0 with
    | false =>
      simp only [Bool.false_eq_true, if_false] at hok
      injection hok with h
      subst h
      exact ⟨rfl, rfl⟩
    | true =>
      simp only [if_true] at hok
      rcases himul : imulMask (iscloseZero (squeeze ysm)) anchorMask with e | f2 <;>
        rw [himul] at hok
      · simp at hok
      · simp only [] at hok
        injection hok with h
        subst h
        exact ⟨rfl, rfl⟩
  · intro j hj
    interval_cases j <;> with_unfolding_all rfl

/-- Claim C9, witness: at the first marker atomic number (57, lanthanum) the
transform returns the first charge-3/coordination-8 radius. -/
theorem C9_radii_charge3_coordination8_witness :
    (0 : ℕ) < 15 ∧
    REE_z_to_radii (zmarker.getD 0 0) = (get_ionic_radii (REE false) 3 8).getD 0 0 :=
  ⟨by norm_num, C9_radii_charge3_coordination8.2.2.1 0 (by norm_num)⟩

/-- Claim C10.  Every in-place write any of the three plot functions performs
targets a buffer allocated within the same call: the caller's coefficient
buffer (id 0) is never written, and the lambda plots perform no in-place
writes at all.  (Each embedding is a pure function of its arguments, so no
state survives a call.) -/
theorem C10_no_input_mutation :
    (∀ (oneD drop0 : Bool) (i : ℕ),
      ArrEv.write i ∈ tetradsProfilesTrace oneD drop0 →
      ArrEv.alloc i ∈ tetradsProfilesTrace oneD drop0 ∧ i ≠ 0) ∧
    (∀ i : ℕ, ArrEv.write i ∉ lambdasComponentsTrace) ∧
    (∀ i : ℕ, ArrEv.write i ∉ lambdasProfilesTrace) := by
  refine ⟨?_, ?_, ?_⟩
  · intro oneD drop0 i hw
    cases oneD <;> cases drop0 <;>
      simp [tetradsProfilesTrace] at hw ⊢ <;>
      rcases hw with rfl | rfl | rfl <;> simp
  · intro i
    simp [lambdasComponentsTrace]
  · intro i
    simp [lambdasProfilesTrace]

/-- Claim C10, witness: the drop-filter write of the completing rank-2 call
targets buffer 7, which is allocated by that same call and is not the input. -/
theorem C10_no_input_mutation_witness :
    ArrEv.write 7 ∈ tetradsProfilesTrace false true ∧
    (ArrEv.alloc 7 ∈ tetradsProfilesTrace false true ∧ (7 : ℕ) ≠ 0) :=
  ⟨by simp [tetradsProfilesTrace],
    C10_no_input_mutation.1 false true 7 (by simp [tetradsProfilesTrace])⟩

end Pyrolite


